import Mathlib

set_option maxRecDepth 4000

/-!
Verification development for the EchoVR telemetry capture agent
(`evr-data-recorder`).  The Go sources are shallowly embedded: byte
sequences become `List Char`, wall-clock instants become explicit
millisecond-precision UTC field records, channel/loop based code becomes
explicit folds over the finite list of inputs delivered to it, and IO
outcomes (HTTP fetches, file-system errors) become explicit inputs of the
embedded functions.  Compression (DEFLATE / zstd) is lossless and applied
by external libraries; the replay-file content is therefore modelled as
the byte stream handed to the compressor, which is exactly the
decompressed file content.
-/

/-! Decimal digit bytes, as produced by Go's `time.Format` zero padding. -/

def digitChar (d : Nat) : Char := Char.ofNat (48 + d)

def charDigit (c : Char) : Nat := c.toNat - 48

def isDigitCh (c : Char) : Bool := 48 ≤ c.toNat && c.toNat ≤ 57

/-! Zero-padded decimal fields.  Go's layout components `01`, `02`, `15`,
`04`, `05`, `.000`, `2006` print the field zero-padded to width 2, 3 or 4
(`appendInt` with the layout's width); for in-range values this is exactly
the digit expansion below. -/

def pad2 (n : Nat) : List Char := [digitChar (n / 10 % 10), digitChar (n % 10)]

def pad3 (n : Nat) : List Char :=
  [digitChar (n / 100 % 10), digitChar (n / 10 % 10), digitChar (n % 10)]

def pad4 (n : Nat) : List Char :=
  [digitChar (n / 1000 % 10), digitChar (n / 100 % 10), digitChar (n / 10 % 10),
   digitChar (n % 10)]

/-- Wall-clock instant with millisecond precision, already converted to UTC
(the writers call `frame.Timestamp.UTC()` before formatting). -/
structure DateTimeMs where
  year : Nat
  month : Nat
  day : Nat
  hour : Nat
  minute : Nat
  second : Nat
  millis : Nat
  deriving DecidableEq, Repr

/-- Field ranges guaranteed by Go's `time.Time` for any real instant
(and in particular for `time.Now()`), restricted to four-digit years. -/
def DateTimeMs.Valid (t : DateTimeMs) : Prop :=
  t.year ≤ 9999 ∧ t.month ≤ 12 ∧ t.day ≤ 31 ∧ t.hour ≤ 23 ∧
  t.minute ≤ 59 ∧ t.second ≤ 59 ∧ t.millis ≤ 999

/-- Go layout `2006/01/02 15:04:05.000` applied to a UTC instant
(`writer_echo_replay.go` line 50, `session_meta.go` line 114). -/
def formatTimestamp (t : DateTimeMs) : List Char :=
  pad4 t.year ++ '/' :: pad2 t.month ++ '/' :: pad2 t.day ++ ' ' :: pad2 t.hour ++
    ':' :: pad2 t.minute ++ ':' :: pad2 t.second ++ '.' :: pad3 t.millis

def val2 (a b : Char) : Nat := charDigit a * 10 + charDigit b

def val3 (a b c : Char) : Nat := (charDigit a * 10 + charDigit b) * 10 + charDigit c

def val4 (a b c d : Char) : Nat :=
  ((charDigit a * 10 + charDigit b) * 10 + charDigit c) * 10 + charDigit d

/-- Inverse reading of the `YYYY/MM/DD HH:MM:SS.mmm` layout, as a re-reader
of the replay file would apply it. -/
def parseTimestamp (s : List Char) : Option DateTimeMs :=
  match s with
  | [y1, y2, y3, y4, a1, m1, m2, a2, d1, d2, a3, h1, h2, a4, n1, n2, a5, s1, s2, a6,
     q1, q2, q3] =>
    if a1 = '/' ∧ a2 = '/' ∧ a3 = ' ' ∧ a4 = ':' ∧ a5 = ':' ∧ a6 = '.' ∧
        ([y1, y2, y3, y4, m1, m2, d1, d2, h1, h2, n1, n2, s1, s2, q1, q2, q3].all
          isDigitCh) = true then
      some ⟨val4 y1 y2 y3 y4, val2 m1 m2, val2 d1 d2, val2 h1 h2, val2 n1 n2,
        val2 s1 s2, val3 q1 q2 q3⟩
    else
      none
  | _ => none

/-! Byte-sequence splitting, as a re-reader of the replay file applies it:
split the file on `\n`, split each line at the first two `\t`. -/

/-- Split at the first occurrence of `c`; `none` when `c` does not occur. -/
def splitFirst (c : Char) : List Char → Option (List Char × List Char)
  | [] => none
  | x :: xs =>
    if x = c then some ([], xs)
    else
      match splitFirst c xs with
      | none => none
      | some (a, b) => some (x :: a, b)

/-- Split on every occurrence of `c` (Go's `strings.Split` on a one-byte
separator): always returns one more segment than there are separators. -/
def splitOnChar (c : Char) : List Char → List (List Char)
  | [] => [[]]
  | x :: xs =>
    if x = c then [] :: splitOnChar c xs
    else
      match splitOnChar c xs with
      | [] => [[x]]
      | a :: rest => (x :: a) :: rest

/-! The Frame record and the replay record encoding (`recorder.FrameData`,
`EchoReplayWriterStrategy.WriteFrame` lines 50-55). -/

/-- In-memory composite frame (`httpapi.go`, `FrameData`): capture instant
plus the two verbatim response bodies. -/
structure FrameData where
  Timestamp : DateTimeMs
  SessionData : List Char
  PlayerBoneData : List Char
  deriving DecidableEq, Repr

/-- Bytes a single frame contributes to the replay file, without the
terminating newline. -/
def recordBody (f : FrameData) : List Char :=
  formatTimestamp f.Timestamp ++ '\t' :: f.SessionData ++ '\t' :: f.PlayerBoneData

/-- Bytes a single frame contributes to the replay file:
`<timestamp>\t<session_bytes>\t<bones_bytes>\n`. -/
def encodeFrame (f : FrameData) : List Char :=
  recordBody f ++ ['\n']

/-- A payload that contains neither tab nor newline bytes (the spec's
acknowledged assumption on the upstream JSON bodies). -/
def TabNlFree (xs : List Char) : Prop := '\t' ∉ xs ∧ '\n' ∉ xs

/-! Replay-file writer strategies (`writer_echo_replay.go`,
`session_meta.go`).  Both append encoded records to an in-memory chunk
buffer and push the buffer through the compressor once it reaches 2 MiB;
`entryOut` is the byte stream handed to the compressor, i.e. the
decompressed content of the file. -/

def zipFileChunkSize : Nat := 2 * 1024 * 1024

/-- State of the `.echoreplay` (zip/DEFLATE) writer strategy. -/
structure EchoReplayWriterStrategy where
  buf : List Char
  entryOut : List Char
  deriving Repr

/-- Fresh writer as produced by `NewEchoReplayWriterStrategy`. -/
def EchoReplayWriterStrategy.new : EchoReplayWriterStrategy := ⟨[], []⟩

/-- One `WriteFrame` call (`writer_echo_replay.go` lines 47-63). -/
def EchoReplayWriterStrategy.writeFrame (z : EchoReplayWriterStrategy) (f : FrameData) :
    EchoReplayWriterStrategy :=
  let b := z.buf ++ encodeFrame f
  if zipFileChunkSize ≤ b.length then ⟨[], z.entryOut ++ b⟩ else ⟨b, z.entryOut⟩

/-- `Flush` (`writer_echo_replay.go` lines 65-73). -/
def EchoReplayWriterStrategy.flushed (z : EchoReplayWriterStrategy) :
    EchoReplayWriterStrategy :=
  if 0 < z.buf.length then ⟨[], z.entryOut ++ z.buf⟩ else z

/-- Decompressed content of the `.echoreplay` file after writing `fs` and
flushing, starting from a fresh writer. -/
def echoReplayFileContent (fs : List FrameData) : List Char :=
  ((fs.foldl EchoReplayWriterStrategy.writeFrame EchoReplayWriterStrategy.new).flushed).entryOut

/-! The `.nevrcap` (zstd) writer strategy (`session_meta.go` lines
102-137).  `WriteFrame` first validates both payloads against the
`nevr-common` protobuf schemas (`proto.Unmarshal`), an external library
modelled by the two validity predicates passed in; on success it appends
the identical record encoding. -/

structure NEVRReplayWriterStrategy where
  buf : List Char
  encOut : List Char
  deriving Repr

def NEVRReplayWriterStrategy.new : NEVRReplayWriterStrategy := ⟨[], []⟩

def NEVRReplayWriterStrategy.writeFrame (sessionProtoOk bonesProtoOk : List Char → Bool)
    (z : NEVRReplayWriterStrategy) (f : FrameData) :
    Except String NEVRReplayWriterStrategy :=
  if sessionProtoOk f.SessionData then
    if bonesProtoOk f.PlayerBoneData then
      let b := z.buf ++ encodeFrame f
      if zipFileChunkSize ≤ b.length then .ok ⟨[], z.encOut ++ b⟩ else .ok ⟨b, z.encOut⟩
    else .error "failed to unmarshal player bone data"
  else .error "failed to unmarshal session data"

def NEVRReplayWriterStrategy.flushed (z : NEVRReplayWriterStrategy) :
    NEVRReplayWriterStrategy :=
  if 0 < z.buf.length then ⟨[], z.encOut ++ z.buf⟩ else z

/-- Folding NEVR writes over frames, stopping at the first validation error
(the session loop stops on a `WriteFrame` error). -/
def nevrRun (sessionProtoOk bonesProtoOk : List Char → Bool) :
    NEVRReplayWriterStrategy → List FrameData → Except String NEVRReplayWriterStrategy
  | z, [] => .ok z
  | z, f :: fs =>
    match NEVRReplayWriterStrategy.writeFrame sessionProtoOk bonesProtoOk z f with
    | .error e => .error e
    | .ok z2 => nevrRun sessionProtoOk bonesProtoOk z2 fs

/-! Re-reading a replay file: split on `\n`, split each line at the first
two `\t`, parse the timestamp (§6 of the file-format contract). -/

/-- Split the file on `\n` into newline-terminated records: every record
must end with `\n`, so the final segment must be empty. -/
def splitRecords (content : List Char) : Option (List (List Char)) :=
  match (splitOnChar '\n' content).reverse with
  | [] => none
  | lastSeg :: revRecs => if lastSeg = [] then some revRecs.reverse else none

/-- Decode one record: timestamp up to the first tab, session bytes up to
the second tab, bone bytes afterwards. -/
def decodeLine (line : List Char) : Option (DateTimeMs × List Char × List Char) :=
  match splitFirst '\t' line with
  | none => none
  | some (tsBytes, rest) =>
    match splitFirst '\t' rest with
    | none => none
    | some (sess, bones) =>
      match parseTimestamp tsBytes with
      | none => none
      | some t => some (t, sess, bones)

def decodeAll : List (List Char) → Option (List (DateTimeMs × List Char × List Char))
  | [] => some []
  | l :: ls =>
    match decodeLine l, decodeAll ls with
    | some r, some rs => some (r :: rs)
    | _, _ => none

/-- Full re-read of a replay file. -/
def decodeReplayFile (content : List Char) :
    Option (List (DateTimeMs × List Char × List Char)) :=
  match splitRecords content with
  | none => none
  | some recs => decodeAll recs

/-! Close traces (`EchoReplayWriterStrategy.Close`, lines 75-93, and
`NEVRReplayWriterStrategy.Close`, lines 139-157): flush the chunk buffer
through the compressor, close the compressor/container writer, close the
underlying file; each stage runs even if an earlier one failed, and the
first error encountered is returned. -/

inductive CloseOp where
  | writeChunk (bytes : List Char)
  | closeContainer
  | syncFile
  | closeFile
  deriving DecidableEq, Repr

/-- IO outcomes of the three close stages, inputs of the embedded close:
`none` means the stage succeeded. -/
structure CloseEnv where
  writeErr : Option String
  containerCloseErr : Option String
  fileCloseErr : Option String
  deriving Repr

def firstErr (e1 e2 e3 : Option String) : Option String :=
  match e1 with
  | some e => some e
  | none =>
    match e2 with
    | some e => some e
    | none => e3

/-- Operations `Close` performs on the file system, in order, together
with the error it returns (`writer_echo_replay.go` lines 75-93). -/
def EchoReplayWriterStrategy.close (z : EchoReplayWriterStrategy) (env : CloseEnv) :
    List CloseOp × Option String :=
  let flushOps : List CloseOp :=
    if 0 < z.buf.length then [CloseOp.writeChunk z.buf] else []
  let err1 : Option String := if 0 < z.buf.length then env.writeErr else none
  (flushOps ++ [CloseOp.closeContainer, CloseOp.closeFile],
    firstErr err1 env.containerCloseErr env.fileCloseErr)

/-- Operations `Close` performs for the zstd strategy (`session_meta.go`
lines 139-157); structurally identical to the zip strategy. -/
def NEVRReplayWriterStrategy.close (z : NEVRReplayWriterStrategy) (env : CloseEnv) :
    List CloseOp × Option String :=
  let flushOps : List CloseOp :=
    if 0 < z.buf.length then [CloseOp.writeChunk z.buf] else []
  let err1 : Option String := if 0 < z.buf.length then env.writeErr else none
  (flushOps ++ [CloseOp.closeContainer, CloseOp.closeFile],
    firstErr err1 env.containerCloseErr env.fileCloseErr)

/-! JSON decoding into `SessionMeta` (`session_meta.go` lines 11-17,
`httpapi.go` `FrameDataLogSession.extractSessionUUID`).  The Go code uses
jsoniter's `ConfigCompatibleWithStandardLibrary` / `encoding/json`; the
model below parses a JSON value and applies `encoding/json` struct
semantics for the five tagged fields: unknown keys are ignored, later
duplicates overwrite, `null` leaves a field untouched, and a type mismatch
is an error.  Number syntax is recognised loosely (a maximal run of
number bytes); no claim depends on numeric fine points. -/

def lbraceCh : Char := Char.ofNat 123

def rbraceCh : Char := Char.ofNat 125

def isWsCh (c : Char) : Bool := c = ' ' || c = '\t' || c = '\n' || c = '\r'

def skipWs : List Char → List Char
  | [] => []
  | c :: cs => if isWsCh c then skipWs cs else c :: cs

def hexVal (c : Char) : Option Nat :=
  if 48 ≤ c.toNat ∧ c.toNat ≤ 57 then some (c.toNat - 48)
  else if 97 ≤ c.toNat ∧ c.toNat ≤ 102 then some (c.toNat - 87)
  else if 65 ≤ c.toNat ∧ c.toNat ≤ 70 then some (c.toNat - 55)
  else none

def escChar (c : Char) : Option Char :=
  if c = '"' then some '"'
  else if c = '\\' then some '\\'
  else if c = '/' then some '/'
  else if c = 'b' then some (Char.ofNat 8)
  else if c = 'f' then some (Char.ofNat 12)
  else if c = 'n' then some '\n'
  else if c = 'r' then some '\r'
  else if c = 't' then some '\t'
  else none

/-- Decode a JSON string body after the opening quote, returning the
decoded bytes and the input after the closing quote. -/
def parseJString : List Char → Except String (List Char × List Char)
  | [] => .error "unexpected end of JSON input"
  | c :: cs =>
    if c = '"' then .ok ([], cs)
    else if c = '\\' then
      match cs with
      | [] => .error "unexpected end of JSON input"
      | e :: cs2 =>
        if e = 'u' then
          match cs2 with
          | h1 :: h2 :: h3 :: h4 :: cs3 =>
            match hexVal h1, hexVal h2, hexVal h3, hexVal h4 with
            | some a, some b, some v3, some v4 =>
              match parseJString cs3 with
              | .ok (s, rest) =>
                .ok (Char.ofNat (((a * 16 + b) * 16 + v3) * 16 + v4) :: s, rest)
              | .error m => .error m
            | _, _, _, _ => .error "invalid unicode escape in string"
          | _ => .error "unexpected end of JSON input"
        else
          match escChar e with
          | some r =>
            match parseJString cs2 with
            | .ok (s, rest) => .ok (r :: s, rest)
            | .error m => .error m
          | none => .error "invalid escape in string"
    else
      match parseJString cs with
      | .ok (s, rest) => .ok (c :: s, rest)
      | .error m => .error m

def numCh (c : Char) : Bool :=
  isDigitCh c || c = '-' || c = '+' || c = '.' || c = 'e' || c = 'E'

def spanNum : List Char → List Char × List Char
  | [] => ([], [])
  | c :: cs =>
    if numCh c then
      let (a, b) := spanNum cs
      (c :: a, b)
    else ([], c :: cs)

inductive JsonVal where
  | jnull
  | jbool (b : Bool)
  | jnum (raw : List Char)
  | jstr (s : List Char)
  | jarr (elems : List JsonVal)
  | jobj (fields : List (List Char × JsonVal))
  deriving Repr

mutual

def parseVal : Nat → List Char → Except String (JsonVal × List Char)
  | 0, _ => .error "maximum nesting depth exceeded"
  | fuel + 1, input =>
    match skipWs input with
    | [] => .error "unexpected end of JSON input"
    | c :: cs =>
      if c = '"' then
        match parseJString cs with
        | .ok (s, rest) => .ok (.jstr s, rest)
        | .error m => .error m
      else if c = 'n' then
        match cs with
        | 'u' :: 'l' :: 'l' :: rest => .ok (.jnull, rest)
        | _ => .error "invalid character in literal"
      else if c = 't' then
        match cs with
        | 'r' :: 'u' :: 'e' :: rest => .ok (.jbool true, rest)
        | _ => .error "invalid character in literal"
      else if c = 'f' then
        match cs with
        | 'a' :: 'l' :: 's' :: 'e' :: rest => .ok (.jbool false, rest)
        | _ => .error "invalid character in literal"
      else if isDigitCh c || c = '-' then
        .ok (.jnum (spanNum (c :: cs)).1, (spanNum (c :: cs)).2)
      else if c = lbraceCh then parseObjRest fuel cs []
      else if c = '[' then parseArrRest fuel cs []
      else .error "invalid character looking for beginning of value"

def parseObjRest : Nat → List Char → List (List Char × JsonVal) →
    Except String (JsonVal × List Char)
  | 0, _, _ => .error "maximum nesting depth exceeded"
  | fuel + 1, input, acc =>
    match skipWs input with
    | [] => .error "unexpected end of JSON input"
    | c :: cs =>
      if c = rbraceCh then
        if acc.isEmpty then .ok (.jobj [], cs)
        else .error "invalid character looking for object key string"
      else if c = '"' then
        match parseJString cs with
        | .error m => .error m
        | .ok (key, afterKey) =>
          match skipWs afterKey with
          | ':' :: afterColon =>
            match parseVal fuel afterColon with
            | .error m => .error m
            | .ok (v, afterVal) =>
              match skipWs afterVal with
              | ',' :: next => parseObjRest fuel next (acc ++ [(key, v)])
              | d :: next =>
                if d = rbraceCh then .ok (.jobj (acc ++ [(key, v)]), next)
                else .error "invalid character after object key:value pair"
              | [] => .error "unexpected end of JSON input"
          | _ => .error "invalid character after object key"
      else .error "invalid character looking for object key string"

def parseArrRest : Nat → List Char → List JsonVal → Except String (JsonVal × List Char)
  | 0, _, _ => .error "maximum nesting depth exceeded"
  | fuel + 1, input, acc =>
    match skipWs input with
    | [] => .error "unexpected end of JSON input"
    | c :: cs =>
      if c = ']' ∧ acc.isEmpty then .ok (.jarr [], cs)
      else
        match parseVal fuel (c :: cs) with
        | .error m => .error m
        | .ok (v, afterVal) =>
          match skipWs afterVal with
          | ',' :: next => parseArrRest fuel next (acc ++ [v])
          | ']' :: next => .ok (.jarr (acc ++ [v]), next)
          | _ => .error "invalid character after array element"

end

/-- Session metadata (`session_meta.go` lines 11-17): sparse struct with
json tags `sessionid`, `game_status`, `match_type`, `map_name`,
`private_match`. -/
structure SessionMeta where
  SessionUUID : List Char
  GameStatus : List Char
  MatchType : List Char
  MapName : List Char
  IsPrivateMatch : Bool
  deriving DecidableEq, Repr

def emptySessionMeta : SessionMeta := ⟨[], [], [], [], false⟩

def setMetaField (m : SessionMeta) (key : List Char) (v : JsonVal) :
    Except String SessionMeta :=
  if key = "sessionid".toList then
    match v with
    | .jstr s => .ok { m with SessionUUID := s }
    | .jnull => .ok m
    | _ => .error "cannot unmarshal value into field sessionid of type string"
  else if key = "game_status".toList then
    match v with
    | .jstr s => .ok { m with GameStatus := s }
    | .jnull => .ok m
    | _ => .error "cannot unmarshal value into field game_status of type string"
  else if key = "match_type".toList then
    match v with
    | .jstr s => .ok { m with MatchType := s }
    | .jnull => .ok m
    | _ => .error "cannot unmarshal value into field match_type of type string"
  else if key = "map_name".toList then
    match v with
    | .jstr s => .ok { m with MapName := s }
    | .jnull => .ok m
    | _ => .error "cannot unmarshal value into field map_name of type string"
  else if key = "private_match".toList then
    match v with
    | .jbool b => .ok { m with IsPrivateMatch := b }
    | .jnull => .ok m
    | _ => .error "cannot unmarshal value into field private_match of type bool"
  else .ok m

def setMetaFields : SessionMeta → List (List Char × JsonVal) → Except String SessionMeta
  | m, [] => .ok m
  | m, (k, v) :: rest =>
    match setMetaField m k v with
    | .error e => .error e
    | .ok m2 => setMetaFields m2 rest

/-- `json.Unmarshal(data, &SessionMeta{})`. -/
def unmarshalSessionMeta (data : List Char) : Except String SessionMeta :=
  match parseVal (data.length + 1) data with
  | .error e => .error e
  | .ok (v, rest) =>
    if skipWs rest = [] then
      match v with
      | .jnull => .ok emptySessionMeta
      | .jobj fields => setMetaFields emptySessionMeta fields
      | _ => .error "cannot unmarshal JSON value into SessionMeta"
    else .error "invalid character after top-level value"

/-- `FrameDataLogSession.extractSessionUUID` (`writer_replay_file.go`
lines 146-152): unmarshal the session bytes and return the UUID field. -/
def extractSessionUUID (sessionData : List Char) : Except String (List Char) :=
  match unmarshalSessionMeta sessionData with
  | .error e => .error ("failed to unmarshal response: " ++ e)
  | .ok meta => .ok meta.SessionUUID

/-- Concrete session body carrying `sessionid = "A"`. -/
def jsonSessionA : List Char := lbraceCh :: "\"sessionid\":\"A\"".toList ++ [rbraceCh]

/-- Concrete session body carrying an empty `sessionid`. -/
def jsonSessionEmptyUUID : List Char := lbraceCh :: "\"sessionid\":\"\"".toList ++ [rbraceCh]

/-! Match Session frame processing (`writer_replay_file.go`,
`FrameDataLogSession`).  `ProcessFrames` drains the queue: for each frame
it extracts the session UUID from the session bytes; an extraction error,
a UUID different from the expected one, or a writer error breaks the loop,
after which the session is closed and the writer flushed and closed. -/

/-- State of a `FrameDataLogSession` together with its Echo replay writer
strategy; `finalized` records that the writer was flushed and closed after
the processing loop exited. -/
structure FrameDataLogSession where
  sessionID : List Char
  stopped : Bool
  writer : EchoReplayWriterStrategy
  finalized : Bool
  deriving Repr

/-- Session as built by `NewFrameDataLogSession`. -/
def FrameDataLogSession.new (sessionID : List Char) : FrameDataLogSession :=
  ⟨sessionID, false, EchoReplayWriterStrategy.new, false⟩

/-- Does this frame pass both checks of the processing loop: the session
bytes reveal a UUID and it equals the expected one? -/
def goodFrame (sid : List Char) (f : FrameData) : Bool :=
  match extractSessionUUID f.SessionData with
  | .ok uuid => uuid = sid
  | .error _ => false

/-- The processing loop (`ProcessFrames` lines 60-95) over the finite list
of frames delivered on the queue.  Returns the session state, the list of
frames handed to `writer.WriteFrame` in order, and whether the loop broke
out (rather than consuming every delivered frame and blocking again). -/
def processLoop : FrameDataLogSession → List FrameData →
    FrameDataLogSession × List FrameData × Bool
  | s, [] => (s, [], false)
  | s, f :: fs =>
    if s.stopped then (s, [], true)
    else
      match extractSessionUUID f.SessionData with
      | .error _ => (s, [], true)
      | .ok uuid =>
        if uuid = s.sessionID then
          let s2 : FrameDataLogSession :=
            { s with writer := s.writer.writeFrame f }
          let r := processLoop s2 fs
          (r.1, f :: r.2.1, r.2.2)
        else (s, [], true)

/-- `ProcessFrames` (lines 57-113): run the loop; when it breaks out, call
`Close` (sets `stopped`), flush the writer and close it. -/
def processFrames (s : FrameDataLogSession) (frames : List FrameData) :
    FrameDataLogSession × List FrameData :=
  let r := processLoop s frames
  if r.2.2 then
    ({ r.1 with stopped := true, writer := r.1.writer.flushed, finalized := true }, r.2.1)
  else (r.1, r.2.1)

/-- `FrameDataLogSession.WriteFrame` (lines 115-127): the producer-side
enqueue, given the current queue length. -/
def FrameDataLogSession.enqueueFrame (s : FrameDataLogSession) (queueLen : Nat) :
    Except String Unit :=
  if s.stopped then .error "frame writer is stopped"
  else if queueLen < 1000 then .ok ()
  else .error "outgoing channel is full, cannot write frame"

/-! The recorder Poller (`httpapi.go`, `NewHTTPFramePoller`, lines
14-106).  Each tick resets the two 64 KiB buffers, issues the two GETs in
parallel and joins; a goroutine that errors or sees a non-200 status
returns without writing its buffer, so that half stays empty.  A frame is
then always built from the two buffers and handed to
`session.WriteFrame`; the 5-second inactivity timer is reset exactly when
that call returns nil.  Time is in milliseconds from poller start; the
interleaving tie between the timeout timer and the tick channel at exact
equality is resolved toward the timer. -/

/-- Outcome of one GET issued by a poller goroutine. -/
inductive FetchResult where
  | fetchError
  | badStatus (code : Nat)
  | readStopped (bytesSoFar : List Char)
  | okBody (body : List Char)
  deriving DecidableEq, Repr

/-- Contents of the per-URL buffer after the goroutine joined: the buffer
was reset at tick start, so it holds the body on success, a prefix of it
when the body read failed mid-copy, and nothing otherwise. -/
def bufferAfter : FetchResult → List Char
  | .fetchError => []
  | .badStatus _ => []
  | .readStopped bytesSoFar => bytesSoFar
  | .okBody body => body

/-- One polling tick as the poller observes it: its arrival time, the two
fetch outcomes, the wall clock read for the frame, and whether the
session's `WriteFrame` returned nil for it. -/
structure PollTick where
  time : Nat
  sessionFetch : FetchResult
  bonesFetch : FetchResult
  stamp : DateTimeMs
  accepted : Bool
  deriving Repr

/-- The frame the poller constructs on a tick (`httpapi.go` lines 92-97). -/
def tickFrame (tk : PollTick) : FrameData :=
  ⟨tk.stamp, bufferAfter tk.sessionFetch, bufferAfter tk.bonesFetch⟩

/-- Result of running the poller over the delivered ticks: the frames
passed to `session.WriteFrame` in order, the final inactivity deadline,
and whether the poller returned through the inactivity timeout (on return
the deferred `session.Close()` runs). -/
structure PollerResult where
  emitted : List FrameData
  deadline : Nat
  returned : Bool
  deriving Repr

/-- The poller loop (`httpapi.go` lines 40-105) over the finite tick list:
a tick arriving at or after the current deadline means the timeout timer
fired first and the poller returns; otherwise the tick is processed, a
frame is always emitted, and the deadline is reset to `time + 5000`
exactly when `WriteFrame` succeeded. -/
def pollerLoop : Nat → List PollTick → PollerResult
  | deadline, [] => ⟨[], deadline, false⟩
  | deadline, tk :: rest =>
    if deadline ≤ tk.time then ⟨[], deadline, true⟩
    else
      let newDeadline := if tk.accepted then tk.time + 5000 else deadline
      let r := pollerLoop newDeadline rest
      ⟨tickFrame tk :: r.emitted, r.deadline, r.returned⟩

/-- `NewHTTPFramePoller`: the inactivity timer starts at 5 seconds. -/
def pollerRun (ticks : List PollTick) : PollerResult := pollerLoop 5000 ticks

/-! Probing (`recorder.GetSessionMeta`, `session_meta.go` lines 19-56, and
the agent variant with connection-refused and 500 handling).  The HTTP
exchange is an input: either the dial/request failed (with a flag telling
whether the failure is a connection-refused, the condition the agent
variant detects both structurally and by message substring), or a status
code arrived with the result of reading the body. -/

inductive ProbeOutcome where
  | dialError (refused : Bool) (msg : String)
  | response (status : Nat) (bodyRead : Except String (List Char))
  deriving Repr

/-- Shared 200-body handling of both probe variants: read the body,
unmarshal, reject an empty `sessionid`. -/
def readSessionBody (bodyRead : Except String (List Char)) : Except String SessionMeta :=
  match bodyRead with
  | .error _ => .error "failed to read response body"
  | .ok buf =>
    match unmarshalSessionMeta buf with
    | .error _ => .error "failed to unmarshal response"
    | .ok resp =>
      if resp.SessionUUID = [] then .error "session UUID is empty in response"
      else .ok resp

/-- `recorder.GetSessionMeta` (`session_meta.go` lines 19-56): any request
error is returned as-is; 200 reads and parses the body; 404 returns the
empty meta; any other status is an error. -/
def GetSessionMetaRecorder : ProbeOutcome → Except String SessionMeta
  | .dialError _ msg => .error msg
  | .response status bodyRead =>
    if status = 200 then readSessionBody bodyRead
    else if status = 404 then .ok emptySessionMeta
    else .error "received non-OK response"

/-- Agent `GetSessionMeta` (the agent probe variant, lines 27-81):
additionally maps a connection-refused dial error to the empty meta and a
500 to the `ErrAPIAccessDisabled` sentinel. -/
def GetSessionMetaAgent : ProbeOutcome → Except String SessionMeta
  | .dialError refused msg => if refused then .ok emptySessionMeta else .error msg
  | .response status bodyRead =>
    if status = 200 then readSessionBody bodyRead
    else if status = 404 then .ok emptySessionMeta
    else if status = 500 then .error "API access is disabled on the server"
    else .error "received non-OK response"

/-! Fan-out sink (`MultiWriter.WriteFrame`): skip stopped children, count
successes, remember the last error; fail only when no child succeeded AND
some attempted write failed. -/

/-- A child writer as `MultiWriter.WriteFrame` observes it on one call:
its stopped flag and, when invoked, its write result (`none` = nil). -/
structure ChildWriter where
  stopped : Bool
  writeResult : Option String
  deriving DecidableEq, Repr

/-- The loop body of `MultiWriter.WriteFrame`: skip a stopped child;
record a failed write as the last error; count a nil write as a success. -/
def multiStep (acc : Nat × Option String) (w : ChildWriter) : Nat × Option String :=
  if w.stopped then acc
  else
    match w.writeResult with
    | some e => (acc.1, some e)
    | none => (acc.1 + 1, acc.2)

/-- One `MultiWriter.WriteFrame` call (fan-out sink, lines 286-318):
error only when zero children succeeded and a tracked error exists. -/
def multiWriteFrame (mwStopped : Bool) (children : List ChildWriter) :
    Except String Unit :=
  if mwStopped then .error "multi writer is stopped"
  else
    let r := children.foldl multiStep (0, none)
    if r.1 = 0 ∧ r.2.isSome then .error "all writers failed" else .ok ()

/-- Number of non-stopped children whose write succeeded. -/
def attemptedSuccesses (children : List ChildWriter) : Nat :=
  (children.filter (fun w => !w.stopped && w.writeResult.isNone)).length

/-- Is there a non-stopped child whose write failed? -/
def hasAttemptedFailure (children : List ChildWriter) : Bool :=
  children.any (fun w => !w.stopped && w.writeResult.isSome)

/-! Port-range parsing (`main.go`, `parsePortRange`, lines 257-305):
split on `,`, trim each piece, split at the first `-` (strconv `SplitN`
limit 2), `strconv.Atoi` each side, reject `startPort > endPort`, expand
ranges inclusively, and validate every accumulated port against
`port < 0 || port > 65535`. -/

def goSpaceCh (c : Char) : Bool :=
  c = ' ' || c = '\t' || c = '\n' || c = '\r' || c.toNat = 11 || c.toNat = 12

/-- `strings.TrimSpace` (ASCII white space). -/
def trimSpace (s : List Char) : List Char :=
  (((s.dropWhile goSpaceCh).reverse).dropWhile goSpaceCh).reverse

/-- `strings.SplitN(s, "-", 2)`. -/
def splitN2 (c : Char) (s : List Char) : List (List Char) :=
  match splitFirst c s with
  | none => [s]
  | some (a, b) => [a, b]

def digitsVal (ds : List Char) : Nat := ds.foldl (fun a c => a * 10 + charDigit c) 0

/-- `strconv.Atoi`: optional sign, decimal digits, 64-bit range check. -/
def goAtoi (s : List Char) : Except String Int :=
  match s with
  | [] => .error "invalid syntax"
  | c :: rest =>
    let ds : List Char := if c = '-' || c = '+' then rest else s
    if ds.isEmpty then .error "invalid syntax"
    else if ds.all isDigitCh then
      let n : Nat := digitsVal ds
      if c = '-' then
        if n ≤ 9223372036854775808 then .ok (-(n : Int)) else .error "value out of range"
      else if n ≤ 9223372036854775807 then .ok (n : Int)
      else .error "value out of range"
    else .error "invalid syntax"

/-- Inclusive expansion `for i := startPort; i <= endPort; i++`. -/
def intRange (a b : Int) : List Int :=
  (List.range (b + 1 - a).toNat).map (fun (i : Nat) => a + (i : Int))

/-- The validation test `port < 0 || port > 65535`. -/
def portOutOfRange (p : Int) : Bool := p < 0 || 65535 < p

def parsePortRangeAux : List Int → List (List Char) → Except String (List Int)
  | acc, [] => .ok acc
  | acc, piece :: rest =>
    let rs := trimSpace piece
    if rs.isEmpty then parsePortRangeAux acc rest
    else
      match splitN2 '-' rs with
      | [p] =>
        match goAtoi p with
        | .error _ => .error "invalid port"
        | .ok port =>
          if (acc ++ [port]).any portOutOfRange then
            .error "port must be between 0 and 65535"
          else parsePortRangeAux (acc ++ [port]) rest
      | [p1, p2] =>
        match goAtoi p1, goAtoi p2 with
        | .ok a, .ok b =>
          if a > b then .error "startPort must be less than or equal to endPort"
          else if (acc ++ intRange a b).any portOutOfRange then
            .error "port must be between 0 and 65535"
          else parsePortRangeAux (acc ++ intRange a b) rest
        | _, _ => .error "invalid port"
      | _ => .error "invalid port range"

/-- `parsePortRange` (`main.go` lines 257-305). -/
def parsePortRange (s : List Char) : Except String (List Int) :=
  parsePortRangeAux [] (splitOnChar ',' s)

/-- A non-empty all-digit byte string denoting the value `n`. -/
def IsNumeralOf (s : List Char) (n : Nat) : Prop :=
  s ≠ [] ∧ s.all isDigitCh = true ∧ digitsVal s = n

/-! Claim theorems. -/

/-- Concrete session body carrying `sessionid = "B"`. -/
def jsonSessionB : List Char := lbraceCh :: "\"sessionid\":\"B\"".toList ++ [rbraceCh]

/-- A frame whose session bytes reveal `sessionid = "A"`. -/
def frameGoodA : FrameData := ⟨⟨2025, 1, 2, 3, 4, 5, 6⟩, jsonSessionA, ['b', 'b']⟩

/-- A frame whose session bytes reveal `sessionid = "B"`. -/
def frameDriftB : FrameData := ⟨⟨2025, 1, 2, 3, 4, 5, 7⟩, jsonSessionB, ['b', 'b']⟩

/-- A frame whose session bytes are empty and hence unparseable. -/
def frameEmptySession : FrameData := ⟨⟨2025, 1, 2, 3, 4, 5, 8⟩, [], ['b', 'b']⟩

/-- A polling tick whose `/session` GET failed while `/player_bones`
succeeded, and whose `WriteFrame` enqueue was accepted. -/
def tickSessionFail : PollTick :=
  ⟨1000, .fetchError, .okBody ['x'], ⟨2025, 1, 2, 3, 4, 5, 6⟩, true⟩

/-- Close-stage IO environment in which every stage succeeds. -/
def closeEnvClean : CloseEnv := ⟨none, none, none⟩

theorem charDigit_digitChar (d : Nat) (h : d < 10) : charDigit (digitChar d) = d := by
  interval_cases d <;> rfl

theorem isDigitCh_digitChar (d : Nat) (h : d < 10) : isDigitCh (digitChar d) = true := by
  interval_cases d <;> rfl

theorem digitChar_ne_tab (d : Nat) (h : d < 10) : digitChar d ≠ '\t' := by
  interval_cases d <;> decide

theorem digitChar_ne_nl (d : Nat) (h : d < 10) : digitChar d ≠ '\n' := by
  interval_cases d <;> decide

theorem val2_pad2 (n : Nat) (h : n ≤ 99) :
    val2 (digitChar (n / 10 % 10)) (digitChar (n % 10)) = n := by
  unfold val2
  rw [charDigit_digitChar _ (Nat.mod_lt _ (by omega)),
      charDigit_digitChar _ (Nat.mod_lt _ (by omega))]
  omega

theorem val3_pad3 (n : Nat) (h : n ≤ 999) :
    val3 (digitChar (n / 100 % 10)) (digitChar (n / 10 % 10)) (digitChar (n % 10)) = n := by
  unfold val3
  rw [charDigit_digitChar _ (Nat.mod_lt _ (by omega)),
      charDigit_digitChar _ (Nat.mod_lt _ (by omega)),
      charDigit_digitChar _ (Nat.mod_lt _ (by omega))]
  omega

theorem val4_pad4 (n : Nat) (h : n ≤ 9999) :
    val4 (digitChar (n / 1000 % 10)) (digitChar (n / 100 % 10)) (digitChar (n / 10 % 10))
      (digitChar (n % 10)) = n := by
  unfold val4
  rw [charDigit_digitChar _ (Nat.mod_lt _ (by omega)),
      charDigit_digitChar _ (Nat.mod_lt _ (by omega)),
      charDigit_digitChar _ (Nat.mod_lt _ (by omega)),
      charDigit_digitChar _ (Nat.mod_lt _ (by omega))]
  omega

theorem parseTimestamp_formatTimestamp (t : DateTimeMs) (h : t.Valid) :
    parseTimestamp (formatTimestamp t) = some t := by
  obtain ⟨hy, hmo, hd, hh, hmi, hs, hms⟩ := h
  show parseTimestamp
      (pad4 t.year ++ '/' :: pad2 t.month ++ '/' :: pad2 t.day ++ ' ' :: pad2 t.hour ++
        ':' :: pad2 t.minute ++ ':' :: pad2 t.second ++ '.' :: pad3 t.millis) = some t
  simp only [pad4, pad2, pad3, List.cons_append, List.nil_append]
  rw [parseTimestamp]
  rw [if_pos]
  · rw [val4_pad4 _ hy, val2_pad2 _ (by omega), val2_pad2 _ (by omega),
        val2_pad2 _ (by omega), val2_pad2 _ (by omega), val2_pad2 _ (by omega),
        val3_pad3 _ hms]
  · refine ⟨rfl, rfl, rfl, rfl, rfl, rfl, ?_⟩
    simp only [List.all_cons, List.all_nil, Bool.and_eq_true, and_true]
    refine ⟨?_, ?_, ?_, ?_, ?_, ?_, ?_, ?_, ?_, ?_, ?_, ?_, ?_, ?_, ?_, ?_, ?_⟩ <;>
      exact isDigitCh_digitChar _ (Nat.mod_lt _ (by omega))

theorem splitOnChar_ne_nil (c : Char) (xs : List Char) : splitOnChar c xs ≠ [] := by
  induction xs with
  | nil => simp [splitOnChar]
  | cons x xs ih =>
    rw [splitOnChar]
    split
    · simp
    · cases h : splitOnChar c xs with
      | nil => simp
      | cons a rest => simp

theorem splitFirst_append (c : Char) (pre rest : List Char) (h : c ∉ pre) :
    splitFirst c (pre ++ c :: rest) = some (pre, rest) := by
  induction pre with
  | nil => simp [splitFirst]
  | cons x xs ih =>
    simp only [List.mem_cons, not_or] at h
    rw [List.cons_append, splitFirst, if_neg (by exact fun hx => h.1 hx.symm),
        ih h.2]

theorem splitFirst_none (c : Char) (xs : List Char) (h : c ∉ xs) :
    splitFirst c xs = none := by
  induction xs with
  | nil => rfl
  | cons x xs ih =>
    simp only [List.mem_cons, not_or] at h
    rw [splitFirst, if_neg (by exact fun hx => h.1 hx.symm), ih h.2]

theorem splitOnChar_no_sep (c : Char) (xs : List Char) (h : c ∉ xs) :
    splitOnChar c xs = [xs] := by
  induction xs with
  | nil => rfl
  | cons x xs ih =>
    simp only [List.mem_cons, not_or] at h
    rw [splitOnChar, if_neg (by exact fun hx => h.1 hx.symm), ih h.2]

theorem splitOnChar_append (c : Char) (pre rest : List Char) (h : c ∉ pre) :
    splitOnChar c (pre ++ c :: rest) = pre :: splitOnChar c rest := by
  induction pre with
  | nil => simp [splitOnChar]
  | cons x xs ih =>
    simp only [List.mem_cons, not_or] at h
    rw [List.cons_append, splitOnChar, if_neg (by exact fun hx => h.1 hx.symm),
        ih h.2]

theorem not_mem_formatTimestamp_of (c : Char) (t : DateTimeMs)
    (h1 : c ≠ '/') (h2 : c ≠ ' ') (h3 : c ≠ ':') (h4 : c ≠ '.')
    (hdig : ∀ d, d < 10 → c ≠ digitChar d) :
    c ∉ formatTimestamp t := by
  intro h
  simp only [formatTimestamp, pad4, pad3, pad2, List.mem_append, List.mem_cons,
    List.not_mem_nil, or_false, or_assoc] at h
  rcases h with h|h|h|h|h|h|h|h|h|h|h|h|h|h|h|h|h|h|h|h|h|h|h <;>
    first
      | exact h1 h
      | exact h2 h
      | exact h3 h
      | exact h4 h
      | exact hdig _ (Nat.mod_lt _ (by omega)) h

theorem tab_not_mem_formatTimestamp (t : DateTimeMs) : '\t' ∉ formatTimestamp t :=
  not_mem_formatTimestamp_of _ t (by decide) (by decide) (by decide) (by decide)
    (fun d hd h => digitChar_ne_tab d hd h.symm)

theorem nl_not_mem_formatTimestamp (t : DateTimeMs) : '\n' ∉ formatTimestamp t :=
  not_mem_formatTimestamp_of _ t (by decide) (by decide) (by decide) (by decide)
    (fun d hd h => digitChar_ne_nl d hd h.symm)

theorem nl_not_mem_recordBody (f : FrameData)
    (hs : '\n' ∉ f.SessionData) (hb : '\n' ∉ f.PlayerBoneData) :
    '\n' ∉ recordBody f := by
  intro h
  simp only [recordBody, List.mem_append, List.mem_cons, or_assoc] at h
  rcases h with h | h | h | h | h
  · exact nl_not_mem_formatTimestamp _ h
  · exact absurd h (by decide)
  · exact hs h
  · exact absurd h (by decide)
  · exact hb h

theorem echo_writeFrame_stream (z : EchoReplayWriterStrategy) (f : FrameData) :
    (z.writeFrame f).entryOut ++ (z.writeFrame f).buf = z.entryOut ++ z.buf ++ encodeFrame f := by
  simp only [EchoReplayWriterStrategy.writeFrame]
  split <;> simp

theorem echo_run_stream (z : EchoReplayWriterStrategy) (fs : List FrameData) :
    (fs.foldl EchoReplayWriterStrategy.writeFrame z).entryOut ++
      (fs.foldl EchoReplayWriterStrategy.writeFrame z).buf =
      z.entryOut ++ z.buf ++ (fs.map encodeFrame).flatten := by
  induction fs generalizing z with
  | nil => simp
  | cons f fs ih =>
    simp only [List.foldl_cons, List.map_cons, List.flatten_cons]
    rw [ih, echo_writeFrame_stream]
    simp

theorem echo_flushed_buf (z : EchoReplayWriterStrategy) : z.flushed.buf = [] := by
  simp only [EchoReplayWriterStrategy.flushed]
  split
  · rfl
  · rename_i h
    exact List.length_eq_zero.mp (by omega)

theorem echo_flushed_stream (z : EchoReplayWriterStrategy) :
    z.flushed.entryOut = z.entryOut ++ z.buf := by
  simp only [EchoReplayWriterStrategy.flushed]
  split
  · rfl
  · rename_i h
    have hb : z.buf = [] := List.length_eq_zero.mp (by omega)
    simp [hb]

theorem echoReplayFileContent_eq (fs : List FrameData) :
    echoReplayFileContent fs = (fs.map encodeFrame).flatten := by
  unfold echoReplayFileContent
  rw [echo_flushed_stream]
  have := echo_run_stream EchoReplayWriterStrategy.new fs
  simpa [EchoReplayWriterStrategy.new] using this

theorem nevr_writeFrame_stream (vs vb : List Char → Bool) (z : NEVRReplayWriterStrategy)
    (f : FrameData) (hs : vs f.SessionData = true) (hb : vb f.PlayerBoneData = true) :
    ∃ z2, NEVRReplayWriterStrategy.writeFrame vs vb z f = .ok z2 ∧
      z2.encOut ++ z2.buf = z.encOut ++ z.buf ++ encodeFrame f := by
  simp only [NEVRReplayWriterStrategy.writeFrame, hs, hb, if_true]
  split
  · exact ⟨_, rfl, by simp⟩
  · exact ⟨_, rfl, by simp⟩

theorem nevr_run_stream (vs vb : List Char → Bool) (z : NEVRReplayWriterStrategy)
    (fs : List FrameData)
    (h : ∀ f ∈ fs, vs f.SessionData = true ∧ vb f.PlayerBoneData = true) :
    ∃ z2, nevrRun vs vb z fs = .ok z2 ∧
      z2.encOut ++ z2.buf = z.encOut ++ z.buf ++ (fs.map encodeFrame).flatten := by
  induction fs generalizing z with
  | nil => exact ⟨z, rfl, by simp [nevrRun]⟩
  | cons f fs ih =>
    obtain ⟨hf, hfs⟩ : (vs f.SessionData = true ∧ vb f.PlayerBoneData = true) ∧ _ :=
      ⟨h f (List.mem_cons_self f fs), fun g hg => h g (List.mem_cons_of_mem f hg)⟩
    obtain ⟨z2, hz2, hstream⟩ := nevr_writeFrame_stream vs vb z f hf.1 hf.2
    obtain ⟨z3, hz3, hstream3⟩ := ih z2 hfs
    refine ⟨z3, ?_, ?_⟩
    · rw [nevrRun, hz2]
      exact hz3
    · rw [hstream3, hstream]; simp

theorem splitOnChar_encoded (fs : List FrameData)
    (h : ∀ f ∈ fs, '\n' ∉ f.SessionData ∧ '\n' ∉ f.PlayerBoneData) :
    splitOnChar '\n' ((fs.map encodeFrame).flatten) = fs.map recordBody ++ [[]] := by
  induction fs with
  | nil => simp [splitOnChar]
  | cons f fs ih =>
    have hf := h f (List.mem_cons_self f fs)
    have hrest : ∀ g ∈ fs, '\n' ∉ g.SessionData ∧ '\n' ∉ g.PlayerBoneData :=
      fun g hg => h g (List.mem_cons_of_mem f hg)
    simp only [List.map_cons, List.flatten_cons]
    have : encodeFrame f ++ (fs.map encodeFrame).flatten =
        recordBody f ++ '\n' :: (fs.map encodeFrame).flatten := by
      simp [encodeFrame]
    rw [this, splitOnChar_append _ _ _ (nl_not_mem_recordBody f hf.1 hf.2), ih hrest]
    simp

theorem splitRecords_encoded (fs : List FrameData)
    (h : ∀ f ∈ fs, '\n' ∉ f.SessionData ∧ '\n' ∉ f.PlayerBoneData) :
    splitRecords ((fs.map encodeFrame).flatten) = some (fs.map recordBody) := by
  unfold splitRecords
  rw [splitOnChar_encoded fs h]
  simp

theorem decodeLine_recordBody (f : FrameData) (hv : f.Timestamp.Valid)
    (hs : '\t' ∉ f.SessionData) :
    decodeLine (recordBody f) = some (f.Timestamp, f.SessionData, f.PlayerBoneData) := by
  simp only [decodeLine, recordBody, List.append_assoc, List.cons_append,
    splitFirst_append _ _ _ (tab_not_mem_formatTimestamp _),
    splitFirst_append _ _ _ hs, parseTimestamp_formatTimestamp _ hv]

theorem decodeAll_recordBody (fs : List FrameData)
    (h : ∀ f ∈ fs, f.Timestamp.Valid ∧ '\t' ∉ f.SessionData) :
    decodeAll (fs.map recordBody) =
      some (fs.map fun f => (f.Timestamp, f.SessionData, f.PlayerBoneData)) := by
  induction fs with
  | nil => rfl
  | cons f fs ih =>
    have hf := h f (List.mem_cons_self f fs)
    simp only [List.map_cons, decodeAll,
      decodeLine_recordBody f hf.1 hf.2,
      ih (fun g hg => h g (List.mem_cons_of_mem f hg))]

theorem decodeReplayFile_encoded (fs : List FrameData)
    (h : ∀ f ∈ fs, f.Timestamp.Valid ∧ TabNlFree f.SessionData ∧ TabNlFree f.PlayerBoneData) :
    decodeReplayFile ((fs.map encodeFrame).flatten) =
      some (fs.map fun f => (f.Timestamp, f.SessionData, f.PlayerBoneData)) := by
  unfold decodeReplayFile
  rw [splitRecords_encoded fs (fun f hf => ⟨(h f hf).2.1.2, (h f hf).2.2.2⟩)]
  exact decodeAll_recordBody fs (fun f hf => ⟨(h f hf).1, (h f hf).2.1.1⟩)

theorem processLoop_written (s : FrameDataLogSession) (frames : List FrameData)
    (hrun : s.stopped = false) :
    (processLoop s frames).2.1 = frames.takeWhile (goodFrame s.sessionID) := by
  induction frames generalizing s with
  | nil => rfl
  | cons f fs ih =>
    cases hx : extractSessionUUID f.SessionData with
    | error e =>
      rw [processLoop, if_neg (by simp [hrun]), hx]
      simp [List.takeWhile_cons, goodFrame, hx]
    | ok uuid =>
      rw [processLoop, if_neg (by simp [hrun]), hx]
      dsimp only
      by_cases hu : uuid = s.sessionID
      · rw [if_pos hu]
        have hrec := ih { s with writer := s.writer.writeFrame f } hrun
        simp only [List.takeWhile_cons, goodFrame, hx, hu]
        simp [hrec]
      · rw [if_neg hu]
        simp [List.takeWhile_cons, goodFrame, hx, hu]

theorem processLoop_writer (s : FrameDataLogSession) (frames : List FrameData)
    (hrun : s.stopped = false) :
    (processLoop s frames).1.writer =
      (processLoop s frames).2.1.foldl EchoReplayWriterStrategy.writeFrame s.writer ∧
    (processLoop s frames).1.sessionID = s.sessionID ∧
    (processLoop s frames).1.stopped = false := by
  induction frames generalizing s with
  | nil => exact ⟨rfl, rfl, hrun⟩
  | cons f fs ih =>
    cases hx : extractSessionUUID f.SessionData with
    | error e =>
      rw [processLoop, if_neg (by simp [hrun]), hx]
      exact ⟨rfl, rfl, hrun⟩
    | ok uuid =>
      rw [processLoop, if_neg (by simp [hrun]), hx]
      dsimp only
      by_cases hu : uuid = s.sessionID
      · rw [if_pos hu]
        have hrec := ih { s with writer := s.writer.writeFrame f } hrun
        simpa using hrec
      · rw [if_neg hu]
        exact ⟨rfl, rfl, hrun⟩

theorem processLoop_broke (s : FrameDataLogSession) (frames : List FrameData)
    (hrun : s.stopped = false) :
    (processLoop s frames).2.2 = frames.any (fun f => ! goodFrame s.sessionID f) := by
  induction frames generalizing s with
  | nil => rfl
  | cons f fs ih =>
    cases hx : extractSessionUUID f.SessionData with
    | error e =>
      rw [processLoop, if_neg (by simp [hrun]), hx]
      simp [List.any_cons, goodFrame, hx]
    | ok uuid =>
      rw [processLoop, if_neg (by simp [hrun]), hx]
      dsimp only
      by_cases hu : uuid = s.sessionID
      · rw [if_pos hu]
        have hrec := ih { s with writer := s.writer.writeFrame f } hrun
        simp only [List.any_cons, goodFrame, hx, hu]
        simp [hrec, goodFrame]
      · rw [if_neg hu]
        simp [List.any_cons, goodFrame, hx, hu]

theorem pollerLoop_step_timeout (deadline : Nat) (tk : PollTick) (rest : List PollTick)
    (h : deadline ≤ tk.time) :
    pollerLoop deadline (tk :: rest) = ⟨[], deadline, true⟩ := by
  rw [pollerLoop, if_pos h]

theorem pollerLoop_step_process (deadline : Nat) (tk : PollTick) (rest : List PollTick)
    (h : tk.time < deadline) :
    pollerLoop deadline (tk :: rest) =
      ⟨tickFrame tk ::
        (pollerLoop (if tk.accepted then tk.time + 5000 else deadline) rest).emitted,
       (pollerLoop (if tk.accepted then tk.time + 5000 else deadline) rest).deadline,
       (pollerLoop (if tk.accepted then tk.time + 5000 else deadline) rest).returned⟩ := by
  rw [pollerLoop, if_neg (by omega)]

theorem pollerLoop_no_accept (deadline : Nat) (ticks : List PollTick)
    (h : ∀ tk ∈ ticks, tk.accepted = false) :
    (pollerLoop deadline ticks).deadline = deadline ∧
    ((∃ tk ∈ ticks, deadline ≤ tk.time) → (pollerLoop deadline ticks).returned = true) := by
  induction ticks with
  | nil => simp [pollerLoop]
  | cons tk rest ih =>
    by_cases htime : deadline ≤ tk.time
    · rw [pollerLoop_step_timeout _ _ _ htime]
      exact ⟨rfl, fun _ => rfl⟩
    · rw [pollerLoop_step_process _ _ _ (by omega)]
      have hacc : tk.accepted = false := h tk (List.mem_cons_self tk rest)
      rw [hacc]
      simp only [Bool.false_eq_true, if_false]
      obtain ⟨ih1, ih2⟩ := ih (fun g hg => h g (List.mem_cons_of_mem tk hg))
      refine ⟨ih1, fun ⟨g, hg, hgt⟩ => ?_⟩
      rcases List.mem_cons.mp hg with hemem | hgmem
      · exact absurd (hemem ▸ hgt) (by omega)
      · exact ih2 ⟨g, hgmem, hgt⟩

theorem multi_foldl_fst (children : List ChildWriter) (n : Nat) (e : Option String) :
    (children.foldl multiStep (n, e)).1 = n + attemptedSuccesses children := by
  induction children generalizing n e with
  | nil => simp [attemptedSuccesses]
  | cons w ws ih =>
    by_cases hstop : w.stopped
    · simp only [List.foldl_cons, multiStep, hstop, if_true]
      rw [ih n e]
      simp [attemptedSuccesses, List.filter_cons, hstop]
    · cases hw : w.writeResult with
      | some err =>
        simp only [List.foldl_cons, multiStep, hstop, hw, Bool.false_eq_true, if_false]
        rw [ih n (some err)]
        simp [attemptedSuccesses, List.filter_cons, hstop, hw]
      | none =>
        simp only [List.foldl_cons, multiStep, hstop, hw, Bool.false_eq_true, if_false]
        rw [ih (n + 1) e]
        simp only [attemptedSuccesses, List.filter_cons]
        simp [hstop, hw, attemptedSuccesses]
        omega

theorem multi_foldl_snd (children : List ChildWriter) (n : Nat) (e : Option String) :
    (children.foldl multiStep (n, e)).2.isSome = (hasAttemptedFailure children || e.isSome) := by
  induction children generalizing n e with
  | nil => simp [hasAttemptedFailure]
  | cons w ws ih =>
    by_cases hstop : w.stopped
    · simp only [List.foldl_cons, multiStep, hstop, if_true]
      rw [ih n e]
      simp [hasAttemptedFailure, List.any_cons, hstop]
    · cases hw : w.writeResult with
      | some err =>
        simp only [List.foldl_cons, multiStep, hstop, hw, Bool.false_eq_true, if_false]
        rw [ih n (some err)]
        simp [hasAttemptedFailure, List.any_cons, hstop, hw]
      | none =>
        simp only [List.foldl_cons, multiStep, hstop, hw, Bool.false_eq_true, if_false]
        rw [ih (n + 1) e]
        simp [hasAttemptedFailure, List.any_cons, hstop, hw]

theorem multiWriteFrame_ok_iff (children : List ChildWriter) :
    multiWriteFrame false children = .ok () ↔
      (0 < attemptedSuccesses children ∨ hasAttemptedFailure children = false) := by
  unfold multiWriteFrame
  rw [if_neg (by simp)]
  dsimp only
  rw [multi_foldl_fst children 0 none, multi_foldl_snd children 0 none]
  simp only [Nat.zero_add, Option.isSome_none, Bool.or_false]
  by_cases hs : attemptedSuccesses children = 0
  · by_cases hf : hasAttemptedFailure children = true
    · rw [if_pos ⟨hs, hf⟩]
      simp [hs, hf]
    · rw [if_neg (by simp [hf])]
      simp only [Bool.not_eq_true] at hf
      simp [hs, hf]
  · rw [if_neg (by simp [hs])]
    constructor
    · intro
      left
      omega
    · intro
      rfl

theorem mem_intRange (a b p : Int) : p ∈ intRange a b ↔ (a ≤ p ∧ p ≤ b) := by
  unfold intRange
  simp only [List.mem_map, List.mem_range]
  constructor
  · rintro ⟨i, hi, rfl⟩
    omega
  · rintro ⟨h1, h2⟩
    exact ⟨(p - a).toNat, by omega, by omega⟩

theorem parsePortRangeAux_bound (pieces : List (List Char)) :
    ∀ acc ps, (∀ p ∈ acc, portOutOfRange p = false) →
      parsePortRangeAux acc pieces = .ok ps → ∀ p ∈ ps, portOutOfRange p = false := by
  induction pieces with
  | nil =>
    intro acc ps hacc h
    rw [parsePortRangeAux] at h
    cases h
    exact hacc
  | cons piece rest ih =>
    intro acc ps hacc h
    rw [parsePortRangeAux] at h
    split at h
    · exact ih acc ps hacc h
    · split at h
      · split at h
        · exact absurd h (by simp)
        · split at h
          · exact absurd h (by simp)
          · rename_i hall
            refine ih _ ps ?_ h
            intro q hq
            by_contra hbad
            exact hall (List.any_eq_true.mpr ⟨q, hq, by simpa using hbad⟩)
      · split at h
        · split at h
          · exact absurd h (by simp)
          · split at h
            · exact absurd h (by simp)
            · rename_i hall
              refine ih _ ps ?_ h
              intro q hq
              by_contra hbad
              exact hall (List.any_eq_true.mpr ⟨q, hq, by simpa using hbad⟩)
        · exact absurd h (by simp)
      · exact absurd h (by simp)

theorem parsePortRange_bound (s : List Char) (ps : List Int)
    (h : parsePortRange s = .ok ps) : ∀ p ∈ ps, 0 ≤ p ∧ p ≤ 65535 := by
  intro p hp
  have := parsePortRangeAux_bound (splitOnChar ',' s) [] ps (by simp) h p hp
  unfold portOutOfRange at this
  simp only [Bool.or_eq_false_iff, decide_eq_false_iff_not, not_lt] at this
  exact ⟨this.1, this.2⟩

theorem digit_not_dash (c : Char) (h : isDigitCh c = true) : c ≠ '-' := by
  intro he
  subst he
  exact absurd h (by decide)

theorem digit_not_plus (c : Char) (h : isDigitCh c = true) : c ≠ '+' := by
  intro he
  subst he
  exact absurd h (by decide)

theorem digit_not_comma (c : Char) (h : isDigitCh c = true) : c ≠ ',' := by
  intro he
  subst he
  exact absurd h (by decide)

theorem digit_not_space (c : Char) (h : isDigitCh c = true) : goSpaceCh c = false := by
  simp only [isDigitCh, Bool.and_eq_true, decide_eq_true_eq] at h
  simp only [goSpaceCh, Bool.or_eq_false_iff, decide_eq_false_iff_not]
  refine ⟨⟨⟨⟨⟨?_, ?_⟩, ?_⟩, ?_⟩, ?_⟩, ?_⟩
  · exact fun he => by subst he; exact absurd h (by decide)
  · exact fun he => by subst he; exact absurd h (by decide)
  · exact fun he => by subst he; exact absurd h (by decide)
  · exact fun he => by subst he; exact absurd h (by decide)
  · omega
  · omega

theorem dropWhile_all_false (p : Char → Bool) (s : List Char)
    (h : ∀ c ∈ s, p c = false) : s.dropWhile p = s := by
  cases s with
  | nil => rfl
  | cons x xs =>
    rw [List.dropWhile_cons, h x (List.mem_cons_self x xs)]
    simp

theorem trimSpace_eq_self (s : List Char) (h : ∀ c ∈ s, goSpaceCh c = false) :
    trimSpace s = s := by
  unfold trimSpace
  rw [dropWhile_all_false _ _ h,
      dropWhile_all_false _ _ (fun c hc => h c (List.mem_reverse.mp hc)),
      List.reverse_reverse]

theorem goAtoi_numeral (s : List Char) (n : Nat) (hnum : IsNumeralOf s n)
    (hbound : n ≤ 9223372036854775807) : goAtoi s = .ok (n : Int) := by
  obtain ⟨hne, hdig, hval⟩ := hnum
  cases s with
  | nil => exact absurd rfl hne
  | cons c cs =>
    have hc : isDigitCh c = true :=
      List.all_eq_true.mp hdig c (List.mem_cons_self c cs)
    rw [goAtoi]
    dsimp only
    have hsign : (if (decide (c = '-') || decide (c = '+')) = true then cs else c :: cs) =
        c :: cs := by
      rw [if_neg]
      simp only [Bool.or_eq_true, decide_eq_true_eq, not_or]
      exact ⟨digit_not_dash c hc, digit_not_plus c hc⟩
    rw [hsign, if_neg (by simp), if_pos hdig, if_neg (digit_not_dash c hc),
        if_pos (by rw [hval]; exact hbound), hval]

theorem numeral_clean (s : List Char) (n : Nat) (h : IsNumeralOf s n) :
    '-' ∉ s ∧ ',' ∉ s ∧ (∀ c ∈ s, goSpaceCh c = false) := by
  obtain ⟨-, hdig, -⟩ := h
  have hall := List.all_eq_true.mp hdig
  exact ⟨fun hm => digit_not_dash _ (hall _ hm) rfl,
    fun hm => digit_not_comma _ (hall _ hm) rfl,
    fun c hc => digit_not_space c (hall c hc)⟩

theorem intRange_ok (a b : Nat) (hb : b ≤ 65535) :
    ∀ p ∈ intRange (a : Int) (b : Int), portOutOfRange p = false := by
  intro p hp
  rw [mem_intRange] at hp
  simp only [portOutOfRange, Bool.or_eq_false_iff, decide_eq_false_iff_not, not_lt]
  omega

theorem parsePortRange_expand (A B C : List Char) (a b c : Nat)
    (hA : IsNumeralOf A a) (hB : IsNumeralOf B b) (hC : IsNumeralOf C c)
    (hab : a ≤ b) (hb : b ≤ 65535) (hc : c ≤ 65535) :
    parsePortRange (A ++ '-' :: B ++ ',' :: C) =
      .ok (intRange (a : Int) (b : Int) ++ [(c : Int)]) := by
  obtain ⟨hAd, hAc, hAs⟩ := numeral_clean A a hA
  obtain ⟨hBd, hBc, hBs⟩ := numeral_clean B b hB
  obtain ⟨hCd, hCc, hCs⟩ := numeral_clean C c hC
  unfold parsePortRange
  have hsplit : splitOnChar ',' (A ++ '-' :: B ++ ',' :: C) = [A ++ '-' :: B, C] := by
    rw [splitOnChar_append _ _ _ (by
      simp only [List.mem_append, List.mem_cons, not_or]
      exact ⟨hAc, by decide, hBc⟩), splitOnChar_no_sep _ _ hCc]
  rw [hsplit, parsePortRangeAux]
  have htrim1 : trimSpace (A ++ '-' :: B) = A ++ '-' :: B := by
    apply trimSpace_eq_self
    intro x hx
    rcases List.mem_append.mp hx with hx | hx
    · exact hAs x hx
    · rcases List.mem_cons.mp hx with rfl | hx
      · decide
      · exact hBs x hx
  rw [htrim1]
  rw [if_neg (by simp)]
  have hsp1 : splitN2 '-' (A ++ '-' :: B) = [A, B] := by
    unfold splitN2
    rw [splitFirst_append _ _ _ hAd]
  rw [hsp1]
  dsimp only
  rw [goAtoi_numeral A a hA (by omega), goAtoi_numeral B b hB (by omega)]
  dsimp only
  rw [if_neg (by omega)]
  rw [if_neg (by
    rw [List.nil_append, List.any_eq_true]
    rintro ⟨p, hp, hbad⟩
    rw [intRange_ok a b hb p hp] at hbad
    exact absurd hbad (by decide))]
  rw [List.nil_append, parsePortRangeAux]
  have htrim2 : trimSpace C = C := trimSpace_eq_self C hCs
  rw [htrim2]
  rw [if_neg (by
    simp only [List.isEmpty_eq_true, Bool.not_eq_true]
    intro hCe
    exact hC.1 hCe)]
  have hsp2 : splitN2 '-' C = [C] := by
    unfold splitN2
    rw [splitFirst_none _ _ hCd]
  rw [hsp2]
  dsimp only
  rw [goAtoi_numeral C c hC (by omega)]
  dsimp only
  rw [if_neg (by
    rw [List.any_eq_true]
    rintro ⟨p, hp, hbad⟩
    rcases List.mem_append.mp hp with hp2 | hp2
    · rw [intRange_ok a b hb p hp2] at hbad
      exact absurd hbad (by decide)
    · rcases List.mem_cons.mp hp2 with rfl | hp3
      · have hfc : portOutOfRange (c : Int) = false := by
          simp only [portOutOfRange, Bool.or_eq_false_iff, decide_eq_false_iff_not, not_lt]
          omega
        rw [hfc] at hbad
        exact absurd hbad (by decide)
      · exact absurd hp3 (List.not_mem_nil p))]
  rw [parsePortRangeAux]

theorem parsePortRange_rejected (A B : List Char) (a b : Nat)
    (hA : IsNumeralOf A a) (hB : IsNumeralOf B b)
    (ha : a ≤ 9223372036854775807) (hb : b ≤ 9223372036854775807) (hab : b < a) :
    parsePortRange (A ++ '-' :: B) =
      .error "startPort must be less than or equal to endPort" := by
  obtain ⟨hAd, hAc, hAs⟩ := numeral_clean A a hA
  obtain ⟨hBd, hBc, hBs⟩ := numeral_clean B b hB
  unfold parsePortRange
  have hsplit : splitOnChar ',' (A ++ '-' :: B) = [A ++ '-' :: B] := by
    apply splitOnChar_no_sep
    simp only [List.mem_append, List.mem_cons, not_or]
    exact ⟨hAc, by decide, hBc⟩
  rw [hsplit, parsePortRangeAux]
  have htrim1 : trimSpace (A ++ '-' :: B) = A ++ '-' :: B := by
    apply trimSpace_eq_self
    intro x hx
    rcases List.mem_append.mp hx with hx | hx
    · exact hAs x hx
    · rcases List.mem_cons.mp hx with rfl | hx
      · decide
      · exact hBs x hx
  rw [htrim1]
  rw [if_neg (by simp)]
  have hsp1 : splitN2 '-' (A ++ '-' :: B) = [A, B] := by
    unfold splitN2
    rw [splitFirst_append _ _ _ hAd]
  rw [hsp1]
  dsimp only
  rw [goAtoi_numeral A a hA ha, goAtoi_numeral B b hB hb]
  dsimp only
  rw [if_pos (by omega)]

theorem nevr_flushed_stream (z : NEVRReplayWriterStrategy) :
    z.flushed.encOut = z.encOut ++ z.buf := by
  simp only [NEVRReplayWriterStrategy.flushed]
  split
  · rfl
  · rename_i h
    have hb : z.buf = [] := List.length_eq_zero.mp (by omega)
    simp [hb]

theorem goodFrame_iff (sid : List Char) (f : FrameData) :
    goodFrame sid f = true ↔ extractSessionUUID f.SessionData = .ok sid := by
  unfold goodFrame
  cases hx : extractSessionUUID f.SessionData with
  | error e => simp
  | ok uuid => simp

theorem processFrames_snd (s : FrameDataLogSession) (frames : List FrameData) :
    (processFrames s frames).2 = (processLoop s frames).2.1 := by
  unfold processFrames
  dsimp only
  split <;> rfl

theorem takeWhile_append_stop (p : FrameData → Bool) (pre : List FrameData)
    (bad : FrameData) (post : List FrameData)
    (hpre : ∀ f ∈ pre, p f = true) (hbad : p bad = false) :
    (pre ++ bad :: post).takeWhile p = pre := by
  induction pre with
  | nil => simp [List.takeWhile_cons, hbad]
  | cons f fs ih =>
    rw [List.cons_append, List.takeWhile_cons, hpre f (List.mem_cons_self f fs), if_pos rfl,
        ih (fun g hg => hpre g (List.mem_cons_of_mem f hg))]

/-- C1: For every frame accepted by a Match Session for match `m`, a frame
whose session bytes reveal a sessionid different from the expected
`match_id` is never handed to the writer and the session stops accepting:
the frames handed to the writer are exactly the longest prefix of frames
whose session bytes reveal the expected UUID (so every frame that reaches
the writer carries `sessionid = m.match_id`), and as soon as any delivered
frame fails that check the session is stopped and every later `WriteFrame`
call returns an error. -/
theorem C1_session_writes_only_matching (sid : List Char) (frames : List FrameData) :
    (processFrames (FrameDataLogSession.new sid) frames).2 =
        frames.takeWhile (goodFrame sid) ∧
    (∀ f ∈ (processFrames (FrameDataLogSession.new sid) frames).2,
        extractSessionUUID f.SessionData = .ok sid) ∧
    ((∃ f ∈ frames, goodFrame sid f = false) →
        (processFrames (FrameDataLogSession.new sid) frames).1.stopped = true ∧
        ∀ q, (processFrames (FrameDataLogSession.new sid) frames).1.enqueueFrame q =
          .error "frame writer is stopped") := by
  have hrun : (FrameDataLogSession.new sid).stopped = false := rfl
  have hsid : (FrameDataLogSession.new sid).sessionID = sid := rfl
  have hw := processLoop_written (FrameDataLogSession.new sid) frames hrun
  rw [hsid] at hw
  refine ⟨by rw [processFrames_snd, hw], ?_, ?_⟩
  · intro f hf
    rw [processFrames_snd, hw] at hf
    exact (goodFrame_iff sid f).mp (List.mem_takeWhile_imp hf)
  · rintro ⟨f, hf, hbadf⟩
    have hbroke : (processLoop (FrameDataLogSession.new sid) frames).2.2 = true := by
      rw [processLoop_broke _ _ hrun, List.any_eq_true]
      exact ⟨f, hf, by rw [hsid, hbadf]; rfl⟩
    unfold processFrames
    dsimp only
    rw [if_pos hbroke]
    exact ⟨rfl, fun q => rfl⟩

/-- C1 witness: with expected UUID `A`, a good frame followed by a frame
revealing UUID `B`: only the good frame reaches the writer and the session
is stopped afterwards. -/
theorem C1_session_writes_only_matching_witness :
    (processFrames (FrameDataLogSession.new "A".toList) [frameGoodA, frameDriftB]).2 =
        [frameGoodA] ∧
    (processFrames (FrameDataLogSession.new "A".toList) [frameGoodA, frameDriftB]).1.stopped =
        true := by
  have h := C1_session_writes_only_matching "A".toList [frameGoodA, frameDriftB]
  refine ⟨?_, ?_⟩
  · rw [h.1]
    rfl
  · exact (h.2.2 ⟨frameDriftB, by simp, by rfl⟩).1

/-- C10: A frame whose session bytes do not parse as JSON (for example an
empty byte sequence) is not merely skipped: the session stops processing
at that frame, the writer is flushed and closed (the output file is
finalized, containing exactly the frames written before it), and every
subsequent `WriteFrame` call on the session returns an error. -/
theorem C10_unparseable_frame_stops_session (sid : List Char) (pre : List FrameData)
    (bad : FrameData) (post : List FrameData) (e : String)
    (hpre : ∀ f ∈ pre, goodFrame sid f = true)
    (hbad : extractSessionUUID bad.SessionData = .error e) :
    (processFrames (FrameDataLogSession.new sid) (pre ++ bad :: post)).2 = pre ∧
    (processFrames (FrameDataLogSession.new sid) (pre ++ bad :: post)).1.stopped = true ∧
    (processFrames (FrameDataLogSession.new sid) (pre ++ bad :: post)).1.finalized = true ∧
    (processFrames (FrameDataLogSession.new sid) (pre ++ bad :: post)).1.writer.buf = [] ∧
    (processFrames (FrameDataLogSession.new sid) (pre ++ bad :: post)).1.writer.entryOut =
      (pre.map encodeFrame).flatten ∧
    (∀ q, (processFrames (FrameDataLogSession.new sid) (pre ++ bad :: post)).1.enqueueFrame q =
      .error "frame writer is stopped") := by
  have hrun : (FrameDataLogSession.new sid).stopped = false := rfl
  have hsid : (FrameDataLogSession.new sid).sessionID = sid := rfl
  have hbadg : goodFrame sid bad = false := by
    unfold goodFrame
    rw [hbad]
  have hw := processLoop_written (FrameDataLogSession.new sid) (pre ++ bad :: post) hrun
  rw [hsid, takeWhile_append_stop _ _ _ _ hpre hbadg] at hw
  have hbroke : (processLoop (FrameDataLogSession.new sid) (pre ++ bad :: post)).2.2 = true := by
    rw [processLoop_broke _ _ hrun, List.any_eq_true]
    exact ⟨bad, by simp, by rw [hsid, hbadg]; rfl⟩
  have hwr := (processLoop_writer (FrameDataLogSession.new sid) (pre ++ bad :: post) hrun).1
  rw [hw] at hwr
  have hstream :
      (processLoop (FrameDataLogSession.new sid) (pre ++ bad :: post)).1.writer.flushed.entryOut =
        (pre.map encodeFrame).flatten := by
    rw [echo_flushed_stream, hwr]
    have := echo_run_stream EchoReplayWriterStrategy.new pre
    simpa [EchoReplayWriterStrategy.new, FrameDataLogSession.new] using this
  unfold processFrames
  dsimp only
  rw [if_pos hbroke]
  refine ⟨hw, rfl, rfl, ?_, ?_, fun q => rfl⟩
  · exact echo_flushed_buf _
  · exact hstream

/-- C10 witness: expected UUID `A`, one good frame then a frame with empty
session bytes: the file holds exactly the good frame's record and the
session rejects further writes. -/
theorem C10_unparseable_frame_stops_session_witness :
    (processFrames (FrameDataLogSession.new "A".toList)
        [frameGoodA, frameEmptySession]).1.finalized = true ∧
    (processFrames (FrameDataLogSession.new "A".toList)
        [frameGoodA, frameEmptySession]).2 = [frameGoodA] ∧
    (processFrames (FrameDataLogSession.new "A".toList)
        [frameGoodA, frameEmptySession]).1.enqueueFrame 0 =
      .error "frame writer is stopped" := by
  have h := C10_unparseable_frame_stops_session "A".toList [frameGoodA] frameEmptySession []
    "failed to unmarshal response: unexpected end of JSON input"
    (by intro f hf; rw [List.mem_singleton] at hf; subst hf; rfl) rfl
  exact ⟨h.2.2.1, h.1, h.2.2.2.2.2 0⟩

/-- C2: Writing a sequence of frames through a replay-file writer strategy
and flushing produces, as decompressed file content, the concatenation in
write order of `timestamp \t session_bytes \t bones_bytes \n` records with
`YYYY/MM/DD HH:MM:SS.mmm` UTC timestamps; re-reading by splitting on
newlines and at the first two tabs recovers, for tab/newline-free
payloads, exactly the original fields and millisecond timestamps.  The
zstd strategy produces the identical stream for frames its protobuf
validation accepts. -/
theorem C2_replay_record_roundtrip (fs : List FrameData)
    (h : ∀ f ∈ fs, f.Timestamp.Valid ∧ TabNlFree f.SessionData ∧ TabNlFree f.PlayerBoneData) :
    echoReplayFileContent fs = (fs.map encodeFrame).flatten ∧
    decodeReplayFile (echoReplayFileContent fs) =
      some (fs.map fun f => (f.Timestamp, f.SessionData, f.PlayerBoneData)) ∧
    (∀ vs vb : List Char → Bool,
      (∀ f ∈ fs, vs f.SessionData = true ∧ vb f.PlayerBoneData = true) →
      ∃ z2, nevrRun vs vb NEVRReplayWriterStrategy.new fs = .ok z2 ∧
        z2.flushed.encOut = (fs.map encodeFrame).flatten) := by
  refine ⟨echoReplayFileContent_eq fs, ?_, ?_⟩
  · rw [echoReplayFileContent_eq fs]
    exact decodeReplayFile_encoded fs h
  · intro vs vb hv
    obtain ⟨z2, hz2, hstream⟩ := nevr_run_stream vs vb NEVRReplayWriterStrategy.new fs hv
    refine ⟨z2, hz2, ?_⟩
    rw [nevr_flushed_stream, hstream]
    simp [NEVRReplayWriterStrategy.new]

/-- C2 witness: one concrete frame written and re-read. -/
theorem C2_replay_record_roundtrip_witness :
    decodeReplayFile (echoReplayFileContent [frameGoodA]) =
      some [(frameGoodA.Timestamp, frameGoodA.SessionData, frameGoodA.PlayerBoneData)] := by
  have h := C2_replay_record_roundtrip [frameGoodA] (by
    intro f hf
    rw [List.mem_singleton] at hf
    subst hf
    refine ⟨?_, ?_, ?_⟩
    · unfold DateTimeMs.Valid
      decide
    · unfold TabNlFree
      decide
    · unfold TabNlFree
      decide)
  exact h.2.1

/-- C3 counterexample: on a tick whose `/session` request errored, the
recorder poller still passes a frame — with an empty session half — to the
session's `WriteFrame`, instead of skipping the tick. -/
theorem C3_counterexample_partial_frame_emitted :
    tickSessionFail.sessionFetch = .fetchError ∧
    (pollerRun [tickSessionFail]).emitted =
      [⟨⟨2025, 1, 2, 3, 4, 5, 6⟩, [], ['x']⟩] := ⟨rfl, rfl⟩

/-- C3 amended: the poller never skips a processed tick.  Every tick that
arrives before the inactivity deadline contributes exactly one frame to
`session.WriteFrame`, built from the per-URL buffers, and the buffer of a
request that errored or returned non-200 is empty — the partial frame is
passed on, not withheld by the poller. -/
theorem C3_amended_processed_tick_always_emits (deadline : Nat) (tk : PollTick)
    (rest : List PollTick) (h : tk.time < deadline) :
    (pollerLoop deadline (tk :: rest)).emitted =
      ⟨tk.stamp, bufferAfter tk.sessionFetch, bufferAfter tk.bonesFetch⟩ ::
        (pollerLoop (if tk.accepted then tk.time + 5000 else deadline) rest).emitted ∧
    bufferAfter .fetchError = ([] : List Char) ∧
    (∀ code : Nat, bufferAfter (.badStatus code) = ([] : List Char)) := by
  rw [pollerLoop_step_process _ _ _ h]
  exact ⟨rfl, rfl, fun code => rfl⟩

/-- C3 amended witness: a failing-session tick at time 1000 against the
initial 5000 ms deadline. -/
theorem C3_amended_processed_tick_always_emits_witness :
    (pollerLoop 5000 [tickSessionFail]).emitted =
      ⟨tickSessionFail.stamp, bufferAfter tickSessionFail.sessionFetch,
        bufferAfter tickSessionFail.bonesFetch⟩ ::
        (pollerLoop (if tickSessionFail.accepted then tickSessionFail.time + 5000 else 5000)
          []).emitted :=
  (C3_amended_processed_tick_always_emits 5000 tickSessionFail [] (by decide)).1

/-- C4 counterexample: the 5-second inactivity timer is not reset only on
successful dual fetches — a tick whose `/session` GET errored still resets
the deadline (to `time + 5000`) because `session.WriteFrame` accepted the
frame built from the empty buffer. -/
theorem C4_counterexample_timer_reset_on_failed_fetch :
    tickSessionFail.sessionFetch = .fetchError ∧
    (pollerRun [tickSessionFail]).deadline = 1000 + 5000 := ⟨rfl, rfl⟩

/-- C4 amended: the inactivity deadline is reset exactly on ticks whose
`session.WriteFrame` call succeeds, regardless of fetch success; the
poller returns (running its deferred `session.Close()`) at the first tick
that arrives at or after the deadline, hence whenever no accepted
`WriteFrame` happens within the 5-second window.  In particular, with no
accepted write the deadline stays at the initial 5000 ms and any tick at
or after it stops the poller. -/
theorem C4_amended_timer_reset_on_accepted_write :
    (∀ (deadline : Nat) (tk : PollTick) (rest : List PollTick), deadline ≤ tk.time →
        pollerLoop deadline (tk :: rest) = ⟨[], deadline, true⟩) ∧
    (∀ (deadline : Nat) (tk : PollTick) (rest : List PollTick), tk.time < deadline →
        (pollerLoop deadline (tk :: rest)).deadline =
          (pollerLoop (if tk.accepted then tk.time + 5000 else deadline) rest).deadline) ∧
    (∀ ticks : List PollTick, (∀ g ∈ ticks, g.accepted = false) →
        (pollerRun ticks).deadline = 5000 ∧
        ((∃ g ∈ ticks, 5000 ≤ g.time) → (pollerRun ticks).returned = true)) := by
  refine ⟨pollerLoop_step_timeout, ?_, ?_⟩
  · intro deadline tk rest h
    rw [pollerLoop_step_process _ _ _ h]
  · intro ticks hticks
    exact pollerLoop_no_accept 5000 ticks hticks

/-- C4 amended witness: a single never-accepted tick at 6000 ms stops the
poller with the deadline still at its initial value. -/
theorem C4_amended_timer_reset_on_accepted_write_witness :
    (pollerRun [⟨6000, .okBody ['x'], .okBody ['y'], ⟨2025, 1, 2, 3, 4, 5, 6⟩, false⟩]).deadline =
        5000 ∧
    (pollerRun [⟨6000, .okBody ['x'], .okBody ['y'], ⟨2025, 1, 2, 3, 4, 5, 6⟩, false⟩]).returned =
        true := by
  have h := C4_amended_timer_reset_on_accepted_write.2.2
    [⟨6000, .okBody ['x'], .okBody ['y'], ⟨2025, 1, 2, 3, 4, 5, 6⟩, false⟩]
    (by intro g hg; rw [List.mem_singleton] at hg; subst hg; rfl)
  exact ⟨h.1, h.2 ⟨_, List.mem_singleton.mpr rfl, by decide⟩⟩

/-- C5 counterexample: the recorder probe (`recorder.GetSessionMeta`)
returns the dial error itself on a connection-refused dial, not the
"inactive" empty result the claim asserts for every probe. -/
theorem C5_counterexample_recorder_probe_errors_on_refused :
    GetSessionMetaRecorder (.dialError true "connection refused") =
      .error "connection refused" := rfl

/-- C5 amended: only the agent probe maps a dial-level connection-refused
to the "inactive" result (empty `SessionMeta`, no error); the recorder
probe propagates the dial error to its caller (which logs and skips the
target). -/
theorem C5_amended_refused_probe_split (msg : String) :
    GetSessionMetaAgent (.dialError true msg) = .ok emptySessionMeta ∧
    GetSessionMetaRecorder (.dialError true msg) = .error msg := ⟨rfl, rfl⟩

/-- C5 amended witness. -/
theorem C5_amended_refused_probe_split_witness :
    GetSessionMetaAgent (.dialError true "connection refused") = .ok emptySessionMeta :=
  (C5_amended_refused_probe_split "connection refused").1

/-- C6 counterexample: a 200 response whose body parses with an empty
`sessionid` makes both probes return an error, not the "inactive" empty
result the claim asserts. -/
theorem C6_counterexample_empty_uuid_is_error :
    GetSessionMetaRecorder (.response 200 (.ok jsonSessionEmptyUUID)) =
      .error "session UUID is empty in response" ∧
    GetSessionMetaAgent (.response 200 (.ok jsonSessionEmptyUUID)) =
      .error "session UUID is empty in response" := ⟨rfl, rfl⟩

/-- C6 amended: on a 200 response whose body unmarshals to a `SessionMeta`
with an empty `sessionid`, both probe variants return the
"session UUID is empty" error (the discovery loop then logs and skips the
target); the "inactive" empty result is reserved for 404 and, in the agent
variant, connection-refused. -/
theorem C6_amended_empty_uuid_probe_error (body : List Char) (meta : SessionMeta)
    (h : unmarshalSessionMeta body = .ok meta) (he : meta.SessionUUID = []) :
    GetSessionMetaRecorder (.response 200 (.ok body)) =
      .error "session UUID is empty in response" ∧
    GetSessionMetaAgent (.response 200 (.ok body)) =
      .error "session UUID is empty in response" ∧
    GetSessionMetaRecorder (.response 404 (.ok body)) = .ok emptySessionMeta := by
  have hread : readSessionBody (.ok body) = .error "session UUID is empty in response" := by
    unfold readSessionBody
    dsimp only
    rw [h]
    dsimp only
    rw [if_pos he]
  refine ⟨?_, ?_, rfl⟩
  · unfold GetSessionMetaRecorder
    dsimp only
    rw [if_pos rfl, hread]
  · unfold GetSessionMetaAgent
    dsimp only
    rw [if_pos rfl, hread]

/-- C6 amended witness. -/
theorem C6_amended_empty_uuid_probe_error_witness :
    GetSessionMetaRecorder (.response 200 (.ok jsonSessionEmptyUUID)) =
      .error "session UUID is empty in response" :=
  (C6_amended_empty_uuid_probe_error jsonSessionEmptyUUID
    ⟨[], [], [], [], false⟩ rfl rfl).1

/-- C7 counterexample: closing a replay-file writer strategy (either
container variant) never performs an fsync of the underlying file, against
the claimed flush → close-container → fsync → close order. -/
theorem C7_counterexample_no_fsync :
    CloseOp.syncFile ∉ (EchoReplayWriterStrategy.close ⟨['a'], []⟩ closeEnvClean).1 ∧
    CloseOp.syncFile ∉ (NEVRReplayWriterStrategy.close ⟨['a'], []⟩ closeEnvClean).1 := by
  constructor <;> decide

/-- C7 amended: `Close` on either replay writer strategy performs, in
exactly this order, the chunk-buffer flush through the compressor (one
chunk write when the buffer is non-empty, nothing otherwise), then closes
the compressor/container writer, then closes the underlying file with no
fsync; every stage runs even when an earlier one failed and the first
stage error is returned to the caller. -/
theorem C7_amended_close_order (z : EchoReplayWriterStrategy)
    (zn : NEVRReplayWriterStrategy) (env : CloseEnv) :
    (∃ flushOps,
      (z.close env).1 = flushOps ++ [CloseOp.closeContainer, CloseOp.closeFile] ∧
      (z.buf = [] → flushOps = []) ∧
      (z.buf ≠ [] → flushOps = [CloseOp.writeChunk z.buf]) ∧
      CloseOp.syncFile ∉ (z.close env).1 ∧
      (z.close env).2 =
        firstErr (if 0 < z.buf.length then env.writeErr else none)
          env.containerCloseErr env.fileCloseErr) ∧
    (∃ flushOps,
      (zn.close env).1 = flushOps ++ [CloseOp.closeContainer, CloseOp.closeFile] ∧
      (zn.buf = [] → flushOps = []) ∧
      (zn.buf ≠ [] → flushOps = [CloseOp.writeChunk zn.buf]) ∧
      CloseOp.syncFile ∉ (zn.close env).1 ∧
      (zn.close env).2 =
        firstErr (if 0 < zn.buf.length then env.writeErr else none)
          env.containerCloseErr env.fileCloseErr) := by
  constructor
  · refine ⟨if 0 < z.buf.length then [CloseOp.writeChunk z.buf] else [], rfl, ?_, ?_, ?_, rfl⟩
    · intro hb
      rw [if_neg (by simp [hb])]
    · intro hb
      rw [if_pos (by cases hz : z.buf with
        | nil => exact absurd hz hb
        | cons x xs => simp)]
    · unfold EchoReplayWriterStrategy.close
      dsimp only
      intro hmem
      rcases List.mem_append.mp hmem with hmem | hmem
      · split at hmem
        · rcases List.mem_singleton.mp hmem with h
          exact absurd h (by simp)
        · exact absurd hmem (List.not_mem_nil _)
      · rcases List.mem_cons.mp hmem with h | hmem
        · exact absurd h (by simp)
        · rcases List.mem_cons.mp hmem with h | hmem
          · exact absurd h (by simp)
          · exact absurd hmem (List.not_mem_nil _)
  · refine ⟨if 0 < zn.buf.length then [CloseOp.writeChunk zn.buf] else [], rfl, ?_, ?_, ?_, rfl⟩
    · intro hb
      rw [if_neg (by simp [hb])]
    · intro hb
      rw [if_pos (by cases hz : zn.buf with
        | nil => exact absurd hz hb
        | cons x xs => simp)]
    · unfold NEVRReplayWriterStrategy.close
      dsimp only
      intro hmem
      rcases List.mem_append.mp hmem with hmem | hmem
      · split at hmem
        · rcases List.mem_singleton.mp hmem with h
          exact absurd h (by simp)
        · exact absurd hmem (List.not_mem_nil _)
      · rcases List.mem_cons.mp hmem with h | hmem
        · exact absurd h (by simp)
        · rcases List.mem_cons.mp hmem with h | hmem
          · exact absurd h (by simp)
          · exact absurd hmem (List.not_mem_nil _)

/-- C7 amended witness: a writer with a pending one-byte buffer and a
clean IO environment. -/
theorem C7_amended_close_order_witness :
    (EchoReplayWriterStrategy.close ⟨['a'], []⟩ closeEnvClean).1 =
      [CloseOp.writeChunk ['a'], CloseOp.closeContainer, CloseOp.closeFile] := by
  obtain ⟨⟨flushOps, h1, hnil, hcons, hsync, herr⟩, -⟩ :=
    C7_amended_close_order ⟨['a'], []⟩ ⟨['a'], []⟩ closeEnvClean
  rw [h1, hcons (by simp)]
  rfl

/-- C8 counterexample: a fan-out write over a single stopped child
returns success even though zero children succeeded, against the claimed
"success iff at least one child succeeded". -/
theorem C8_counterexample_all_stopped_children_ok :
    multiWriteFrame false [⟨true, none⟩] = .ok () ∧
    attemptedSuccesses [⟨true, none⟩] = 0 := ⟨rfl, rfl⟩

/-- C8 amended: a non-stopped fan-out write succeeds iff at least one
child succeeded or no attempted child write failed (in particular it
succeeds when every child is stopped, or when there are no children);
equivalently it errors iff zero children succeeded and at least one
attempted write failed.  A stopped fan-out always errors. -/
theorem C8_amended_fanout_success_condition (children : List ChildWriter) :
    (multiWriteFrame false children = .ok () ↔
      (0 < attemptedSuccesses children ∨ hasAttemptedFailure children = false)) ∧
    multiWriteFrame true children = .error "multi writer is stopped" :=
  ⟨multiWriteFrame_ok_iff children, rfl⟩

/-- C8 amended witness: one failing and one succeeding child — the write
succeeds. -/
theorem C8_amended_fanout_success_condition_witness :
    multiWriteFrame false [⟨false, some "boom"⟩, ⟨false, none⟩] = .ok () := by
  have h := (C8_amended_fanout_success_condition [⟨false, some "boom"⟩, ⟨false, none⟩]).1
  exact h.mpr (Or.inl (by decide))

/-- C9 counterexample: `parsePortRange` accepts port 0 (its validation is
`port < 0 || port > 65535`), against the claimed invariant
`1 ≤ port ≤ 65535`. -/
theorem C9_counterexample_port_zero_accepted :
    parsePortRange "0".toList = .ok [(0 : Int)] := rfl

/-- C9 amended: every port the parser accepts satisfies `0 ≤ port ≤ 65535`
(0 is accepted, unlike the spec's lower bound of 1); a range piece
`A-B` with numerals in range and `A ≤ B` together with a single piece `C`
expands to exactly the inclusive range `{A..B}` followed by `{C}`; and
`A > B` is rejected with an error, returning no ports. -/
theorem C9_amended_port_range_parsing :
    (∀ s ps, parsePortRange s = .ok ps → ∀ p ∈ ps, 0 ≤ p ∧ p ≤ 65535) ∧
    (∀ (A B C : List Char) (a b c : Nat),
      IsNumeralOf A a → IsNumeralOf B b → IsNumeralOf C c →
      a ≤ b → b ≤ 65535 → c ≤ 65535 →
      parsePortRange (A ++ '-' :: B ++ ',' :: C) =
        .ok (intRange (a : Int) (b : Int) ++ [(c : Int)]) ∧
      (∀ p : Int, p ∈ intRange (a : Int) (b : Int) ++ [(c : Int)] ↔
        (((a : Int) ≤ p ∧ p ≤ (b : Int)) ∨ p = (c : Int)))) ∧
    (∀ (A B : List Char) (a b : Nat),
      IsNumeralOf A a → IsNumeralOf B b →
      a ≤ 9223372036854775807 → b ≤ 9223372036854775807 → b < a →
      parsePortRange (A ++ '-' :: B) =
        .error "startPort must be less than or equal to endPort") := by
  refine ⟨parsePortRange_bound, ?_, parsePortRange_rejected⟩
  intro A B C a b c hA hB hC hab hb hc
  refine ⟨parsePortRange_expand A B C a b c hA hB hC hab hb hc, ?_⟩
  intro p
  simp [mem_intRange]

/-- C9 amended witness: `"6721-6723,6725"` expands to ports 6721, 6722,
6723 and 6725, `"6723-6721"` is rejected, and the accepted ports are in
range. -/
theorem C9_amended_port_range_parsing_witness :
    parsePortRange ("6721".toList ++ '-' :: "6723".toList ++ ',' :: "6725".toList) =
      .ok (intRange (6721 : Int) (6723 : Int) ++ [(6725 : Int)]) ∧
    parsePortRange ("6723".toList ++ '-' :: "6721".toList) =
      .error "startPort must be less than or equal to endPort" ∧
    (∀ p ∈ [(0 : Int)], 0 ≤ p ∧ p ≤ 65535) := by
  refine ⟨?_, ?_, ?_⟩
  · exact (C9_amended_port_range_parsing.2.1 "6721".toList "6723".toList "6725".toList
      6721 6723 6725 ⟨by decide, by decide, by decide⟩ ⟨by decide, by decide, by decide⟩
      ⟨by decide, by decide, by decide⟩ (by decide) (by decide) (by decide)).1
  · exact C9_amended_port_range_parsing.2.2 "6723".toList "6721".toList 6723 6721
      ⟨by decide, by decide, by decide⟩ ⟨by decide, by decide, by decide⟩
      (by decide) (by decide) (by decide)
  · exact C9_amended_port_range_parsing.1 "0".toList [(0 : Int)] rfl
